import Mathlib

/-!
Verification development for the unified fuzzy resource search engine of
`mcp-server-kubernetes` (`src/tools/kubectl-unified-search.ts`).

Modelling conventions:
* JavaScript strings are modelled as `List Char`; `String.prototype.includes`
  becomes an infix test, `toLowerCase` an ASCII character map.
* JavaScript numbers used as scores are modelled as exact rationals (`ℚ`);
  the decimal literals 0.9 / 0.8 / 0.7 / 0.6 / 0.4 / 0.2 of the source are the
  corresponding rationals.
* The external listing collaborator (`kubectl get ... -o json`) is a function
  `List Char → List Char → Except (List Char) (List Candidate)`; the
  namespace-listing collaborator is an `Except (List Char) (List (List Char))`.
  Errors carry their message string.
* Regular expressions are abstract collaborators applied to the regex source
  string produced by the wildcard-rewriting chain of the code
  (`compileWildcardPattern` below): the `new RegExp` construction in
  `getTargetNamespaces`, whose `SyntaxError` on a malformed pattern escapes
  as a fatal error, is a fallible
  `regexCompile : List Char → Except (List Char) (List Char → Bool)`; the
  matching of the deep scan's `exact` strategy, where a construction failure
  would be swallowed by the per-namespace `catch`, is a total predicate
  `regexTest : List Char → List Char → Bool`.
* The dynamically typed resource objects are modelled per the design notes of
  the specification: required metadata fields plus a path→stringified-value
  map (`fieldVals`) consulted by `getFieldValue`.
-/

/-- Coerce a Lean string literal to the `List Char` representation used
throughout this development. -/
def chars (s : String) : List Char := s.data

/-- Prefix test: `leadsWith sub s` holds when `sub` is a prefix of `s`
(JavaScript `s.startsWith(sub)`). -/
def leadsWith : List Char → List Char → Bool
  | [], _ => true
  | _ :: _, [] => false
  | a :: as, b :: bs => a = b && leadsWith as bs

/-- Substring test: `occursIn sub s` holds when `sub` occurs contiguously inside `s`. -/
def occursIn : List Char → List Char → Bool
  | sub, [] => leadsWith sub []
  | sub, c :: rest => leadsWith sub (c :: rest) || occursIn sub rest

/-- JavaScript `haystack.includes(needle)`: substring test. -/
def jsIncludes (s sub : List Char) : Bool := occursIn sub s

/-- JavaScript `toLowerCase`, restricted to ASCII as used by the code. -/
def lower (s : List Char) : List Char := s.map Char.toLower

/-- Whitespace recognised by JavaScript `trim` (common ASCII subset). -/
def jsWhitespace (c : Char) : Bool :=
  c = ' ' || c = '\t' || c = '\n' || c = '\r' || c = '\x0b' || c = '\x0c'

/-- JavaScript `s.trim()`. -/
def jsTrim (s : List Char) : List Char :=
  ((s.dropWhile jsWhitespace).reverse.dropWhile jsWhitespace).reverse

/-- The early validation of `kubectlUnifiedSearch`:
`!input.query || input.query.trim().length === 0`. -/
def blankQuery (q : List Char) : Bool := q.isEmpty || (jsTrim q).isEmpty

/-!
`levenshteinDistance` (source lines 774–797) fills a DP matrix with
`matrix[0][i] = i`, `matrix[j][0] = j` and
`matrix[j][i] = min(matrix[j][i-1]+1, matrix[j-1][i]+1, matrix[j-1][i-1]+ind)`
where `ind` is 0 iff `str1[i-1] === str2[j-1]`, returning
`matrix[str2.length][str1.length]`.  `levCellF` computes exactly that cell
recurrence; the extra `Nat` argument is structural fuel bounding the recursion
depth, never exhausted for fuel `> j + i` (every recursive call lowers `j + i`
by at least one while lowering the fuel by exactly one).
-/
def levCellF (a b : List Char) : Nat → Nat → Nat → Nat
  | 0, _, _ => 0
  | _ + 1, 0, i => i
  | _ + 1, j + 1, 0 => j + 1
  | fuel + 1, j + 1, i + 1 =>
    let ind := if a.getD i ' ' = b.getD j ' ' then 0 else 1
    min (levCellF a b fuel (j + 1) i + 1)
      (min (levCellF a b fuel j (i + 1) + 1) (levCellF a b fuel j i + ind))

/-- Translation of `levenshteinDistance(str1, str2)`: the value
`matrix[str2.length][str1.length]` of the DP matrix. -/
def levenshteinDistance (str1 str2 : List Char) : Nat :=
  levCellF str1 str2 (str2.length + str1.length + 1) str2.length str1.length

theorem levCellF_zero_right (a b : List Char) (fuel j : Nat) (h : 0 < fuel) :
    levCellF a b fuel j 0 = j := by
  match fuel, j with
  | 0, _ => omega
  | fuel + 1, 0 => rfl
  | fuel + 1, j + 1 => rfl

theorem levCellF_diag (s : List Char) : ∀ fuel k, levCellF s s fuel k k = 0 := by
  intro fuel
  induction fuel with
  | zero => intro k; rfl
  | succ fuel ih =>
    intro k
    match k with
    | 0 => rfl
    | k + 1 =>
      show min _ (min _ (levCellF s s fuel k k + _)) = 0
      rw [ih k]
      simp

theorem levCellF_symm (a b : List Char) :
    ∀ fuel j i, levCellF a b fuel j i = levCellF b a fuel i j := by
  intro fuel
  induction fuel with
  | zero => intro j i; rfl
  | succ fuel ih =>
    intro j i
    match j, i with
    | 0, 0 => rfl
    | 0, i + 1 => rfl
    | j + 1, 0 => rfl
    | j + 1, i + 1 =>
      show min (levCellF a b fuel (j+1) i + 1)
            (min (levCellF a b fuel j (i+1) + 1)
              (levCellF a b fuel j i + (if a.getD i ' ' = b.getD j ' ' then 0 else 1)))
          = min (levCellF b a fuel (i+1) j + 1)
            (min (levCellF b a fuel i (j+1) + 1)
              (levCellF b a fuel i j + (if b.getD j ' ' = a.getD i ' ' then 0 else 1)))
      rw [ih (j+1) i, ih j (i+1), ih j i]
      have hind : (if a.getD i ' ' = b.getD j ' ' then (0:Nat) else 1)
          = (if b.getD j ' ' = a.getD i ' ' then (0:Nat) else 1) := by
        by_cases h : a.getD i ' ' = b.getD j ' '
        · rw [if_pos h, if_pos h.symm]
        · rw [if_neg h, if_neg (fun h2 => h h2.symm)]
      rw [hind, min_left_comm]

theorem levCellF_length_lower (a b : List Char) :
    ∀ fuel j i, j + i < fuel →
      i - j ≤ levCellF a b fuel j i ∧ j - i ≤ levCellF a b fuel j i := by
  intro fuel
  induction fuel with
  | zero => intro j i h; omega
  | succ fuel ih =>
    intro j i h
    match j, i with
    | 0, i => show i - 0 ≤ i ∧ 0 - i ≤ i; omega
    | j + 1, 0 => show 0 - (j+1) ≤ j + 1 ∧ (j+1) - 0 ≤ j + 1; omega
    | j + 1, i + 1 =>
      have h1 := ih (j+1) i (by omega)
      have h2 := ih j (i+1) (by omega)
      have h3 := ih j i (by omega)
      show _ ≤ min (levCellF a b fuel (j+1) i + 1)
            (min (levCellF a b fuel j (i+1) + 1) (levCellF a b fuel j i + _))
          ∧ _ ≤ min (levCellF a b fuel (j+1) i + 1)
            (min (levCellF a b fuel j (i+1) + 1) (levCellF a b fuel j i + _))
      constructor
      · refine le_min (by omega) (le_min (by omega) (by omega))
      · refine le_min (by omega) (le_min (by omega) (by omega))

/-- The pruning bound of the deep fuzzy scan: the length difference of the two
strings never exceeds their Levenshtein distance, so the quick length check of
the source (`lengthDiff <= maxDistance`) discards only strings the distance
check would discard anyway. -/
theorem lengthDiff_le_levenshteinDistance (a b : List Char) :
    max a.length b.length - min a.length b.length ≤ levenshteinDistance a b := by
  have h := levCellF_length_lower a b (b.length + a.length + 1) b.length a.length
    (by omega)
  unfold levenshteinDistance
  omega

/-!  Data model (source lines 92–104 and the input schema). -/

/-- A raw resource object returned by the listing collaborator.  Per the
specification's design notes, the dynamically typed object is modelled as the
required metadata fields plus a dotted-path → stringified-value map consulted
by `getFieldValue`; `creationTimestamp` is the epoch value `Date.getTime`
would yield. -/
structure Candidate where
  name : List Char
  labels : List (List Char × List Char)
  creationTimestamp : Int
  fieldVals : List (List Char × List Char)
deriving DecidableEq

/-- Structure `SearchResult` of the source (the `resource` reference is the candidate). -/
structure SearchResult where
  resource : Candidate
  resourceType : List Char
  namespaceName : List Char
  matchScore : ℚ
  matchReason : List Char
  levenshteinDist : Nat
deriving DecidableEq

/-- Structure `SearchConfig` of the source. -/
structure SearchConfig where
  maxDistance : Nat
  minScore : ℚ
deriving DecidableEq

/-- The strategy record returned by `determineSearchStrategy`.  The `type`
field is kept as a raw string exactly as in the source, where a non-`auto`
`searchMode` is cast into it unchecked. -/
structure SearchStrategy where
  stype : List Char
  selector : List Char
deriving DecidableEq

/-- One entry of the intermediate `matches` array built per candidate by the
deep scan. -/
structure MatchInfo where
  score : ℚ
  reason : List Char
  distance : Nat
deriving DecidableEq

/-- The input object of the `kubectl_search` tool; `none` means the field was
omitted, triggering the source's destructuring defaults.  The `output`
parameter is rendering-only and not modelled; `recent` is accepted but, as in
the source's streaming path, never forwarded to a listing call. -/
structure SearchInput where
  query : List Char
  resourceTypes : Option (List (List Char))
  namespaces : Option (List (List Char))
  namespacePattern : Option (List Char)
  excludeSystemNamespaces : Option Bool
  searchMode : Option (List Char)
  fuzzyTolerance : Option (List Char)
  limit : Option Nat
  includeLabels : Option Bool
  includeAnnotations : Option Bool
  sortBy : Option (List Char)
  recent : Option Bool

/-!  Strategy selection and fuzzy configuration (source lines 186–221). -/

/-- Translation of `determineSearchStrategy` (source lines 186–209). -/
def determineSearchStrategy (query searchMode : List Char) : SearchStrategy :=
  if searchMode ≠ chars "auto" then ⟨searchMode, query⟩
  else if jsIncludes query (chars "=") then
    if jsIncludes query (chars "metadata.") || jsIncludes query (chars "status.")
        || jsIncludes query (chars "spec.") then
      ⟨chars "fields", query⟩
    else
      ⟨chars "labels", query⟩
  else if jsIncludes query (chars "*") || jsIncludes query (chars "?") then
    ⟨chars "exact", query⟩
  else
    ⟨chars "fuzzy", query⟩

/-- Translation of `getFuzzyConfig` (source lines 211–221). -/
def getFuzzyConfig (tolerance : List Char) : SearchConfig :=
  if tolerance = chars "strict" then ⟨1, 0.8⟩
  else if tolerance = chars "loose" then ⟨4, 0.2⟩
  else ⟨2, 0.4⟩

/-!  Wildcard-pattern compilation.  The identical four-step rewrite appears
verbatim at source lines 263–270 (`getTargetNamespaces`), 317–324
(`searchNamespaces`) and 670–677 (`deepSearchResources`); it is factored here
once.  The steps are the successive JavaScript `replace` calls:
`/\*/g → ".*"`, then `/\?/g → "."`, then `/\./g → "\\."`, then
`/\.\*/g → ".*"`. -/

/-- Step 1: every `*` becomes `.*`. -/
def replaceStars (l : List Char) : List Char :=
  l.flatMap fun c => if c = '*' then ['.', '*'] else [c]

/-- Step 2: every `?` becomes `.`. -/
def replaceQuestions (l : List Char) : List Char :=
  l.map fun c => if c = '?' then '.' else c

/-- Step 3: every `.` (including those introduced by steps 1–2) becomes `\.`. -/
def escapeDots (l : List Char) : List Char :=
  l.flatMap fun c => if c = '.' then ['\\', '.'] else [c]

/-- Step 4: every two-character occurrence `.*` becomes `.*` (a textual
identity; in the source it follows step 3, which has already turned each `.`
of a `.*` pair into `\.`, so it never repairs anything). -/
def replaceDotStar : List Char → List Char
  | '.' :: '*' :: rest => '.' :: '*' :: replaceDotStar rest
  | c :: rest => c :: replaceDotStar rest
  | [] => []

/-- The regex source string the code builds from a wildcard pattern. -/
def compileWildcardPattern (pattern : List Char) : List Char :=
  replaceDotStar (escapeDots (replaceQuestions (replaceStars pattern)))

/-- Modelled from the spec (§4.1 step 3): the wildcard translation the
specification describes — `*`→`.*`, `?`→`.`, literal dots escaped — for
comparison with `compileWildcardPattern` above. -/
def specWildcardRegex (pattern : List Char) : List Char :=
  pattern.flatMap fun c =>
    if c = '*' then ['.', '*']
    else if c = '?' then ['.']
    else if c = '.' then ['\\', '.']
    else [c]

/-!  Namespace resolution (source lines 223–279). -/

/-- The fixed system-namespace deny-list (source lines 248–252). -/
def systemNamespacesList : List (List Char) :=
  [chars "kube-system", chars "kube-public", chars "kube-node-lease",
   chars "default", chars "kubernetes-dashboard", chars "ingress-nginx",
   chars "cert-manager", chars "monitoring", chars "logging",
   chars "istio-system", chars "linkerd"]

/-- Bounding step `maxNamespaces ? list.slice(0, maxNamespaces) : list` — note that the
JavaScript truthiness test means a bound of `0` applies no slicing. -/
def applyMaxNamespaces (maxNamespaces : Option Nat) (l : List (List Char)) :
    List (List Char) :=
  match maxNamespaces with
  | some (k + 1) => l.take (k + 1)
  | _ => l

/-- Translation of `getTargetNamespaces` (source lines 223–279).  The namespace-listing
collaborator (`kubectl get namespaces -o name`, parsed to names) is the
`listNamespaces` argument; a thrown error is its `.error` variant.  The
`new RegExp(...)` construction for a supplied `namespacePattern` sits inside
the same `try` block and can itself throw (a `SyntaxError` for a malformed
pattern), so it is modelled by the fallible `regexCompile` collaborator: a
compilation failure, like a listing failure, is wrapped by the function's
`catch` into `Failed to get namespaces: …`. -/
def getTargetNamespaces (listNamespaces : Except (List Char) (List (List Char)))
    (regexCompile : List Char → Except (List Char) (List Char → Bool))
    (namespaces : Option (List (List Char))) (namespacePattern : Option (List Char))
    (excludeSystemNamespaces : Bool) (_query : List Char)
    (maxNamespaces : Option Nat) : Except (List Char) (List (List Char)) :=
  match namespaces with
  | some (n :: rest) => .ok (applyMaxNamespaces maxNamespaces (n :: rest))
  | _ =>
    match listNamespaces with
    | .error e => .error (chars "Failed to get namespaces: " ++ e)
    | .ok allNamespaces0 =>
      let allNamespaces1 :=
        if excludeSystemNamespaces then
          allNamespaces0.filter fun ns =>
            !(systemNamespacesList.contains ns)
              && !(leadsWith (chars "kube-") ns)
              && !(leadsWith (chars "openshift-") ns)
        else allNamespaces0
      match namespacePattern with
      | some pat =>
        match regexCompile (compileWildcardPattern pat) with
        | .error e => .error (chars "Failed to get namespaces: " ++ e)
        | .ok rtest =>
          .ok (applyMaxNamespaces maxNamespaces (allNamespaces1.filter rtest))
      | none => .ok (applyMaxNamespaces maxNamespaces allNamespaces1)

/-!  Prioritizers (source lines 411–438 and 535–560). -/

/-- The promotion test of `prioritizeNamespaces`: name contains the lowercase
query, or an environment-style token shared by query and name. -/
def namespacePriorityHit (queryLower namespaceLower : List Char) : Bool :=
  jsIncludes namespaceLower queryLower
    || (jsIncludes queryLower (chars "dev") && jsIncludes namespaceLower (chars "dev"))
    || (jsIncludes queryLower (chars "prod") && jsIncludes namespaceLower (chars "prod"))
    || (jsIncludes queryLower (chars "test") && jsIncludes namespaceLower (chars "test"))
    || (jsIncludes queryLower (chars "demo") && jsIncludes namespaceLower (chars "demo"))

/-- Translation of `prioritizeNamespaces` (source lines 411–438): promoted namespaces first,
each side keeping its relative order. -/
def prioritizeNamespaces (namespaces : List (List Char)) (query : List Char) :
    List (List Char) :=
  let queryLower := lower query
  let part := namespaces.partition fun ns => namespacePriorityHit queryLower (lower ns)
  part.1 ++ part.2

/-- Index of the last occurrence of `x` in `l` (the JavaScript `forEach`
assignment `priority[rt] = index` leaves the last index for duplicates). -/
def lastIdxOf (x : List Char) (l : List (List Char)) : Nat :=
  (l.foldl (fun (p : Nat × Nat) y => (p.1 + 1, if y = x then p.1 else p.2)) (0, 0)).2

/-- The priority value `prioritizeResourceTypes` assigns to a resource type:
the keyword boosts of source lines 545–557, defaulting to the caller-supplied
index. -/
def resourceTypePriority (resourceTypes : List (List Char))
    (queryLower rt : List Char) : Int :=
  if rt = chars "pods"
      ∧ (jsIncludes queryLower (chars "pod") || jsIncludes queryLower (chars "container")) then -10
  else if rt = chars "services"
      ∧ (jsIncludes queryLower (chars "service") || jsIncludes queryLower (chars "svc")) then -9
  else if rt = chars "deployments"
      ∧ (jsIncludes queryLower (chars "deploy") || jsIncludes queryLower (chars "app")) then -8
  else if rt = chars "jobs" ∧ jsIncludes queryLower (chars "job") then -7
  else if rt = chars "cronjobs" ∧ jsIncludes queryLower (chars "job") then -6
  else (lastIdxOf rt resourceTypes : Int)

/-- Translation of `prioritizeResourceTypes` (source lines 535–560).  JavaScript `sort` with
the comparator `priority[a] - priority[b]` is a stable ascending sort by
priority, modelled by insertion sort. -/
def prioritizeResourceTypes (resourceTypes : List (List Char)) (query : List Char) :
    List (List Char) :=
  let queryLower := lower query
  List.insertionSort
    (fun a b => resourceTypePriority resourceTypes queryLower a
      ≤ resourceTypePriority resourceTypes queryLower b) resourceTypes

/-!  Retrieval recovery and the two-phase matcher (source lines 562–768). -/

/-- Translation of `getResourcesWithPreFilter` (source lines 562–591): a failing listing call
is caught and degrades to an empty list.  (The unified streaming path never
passes label/field selectors to it.) -/
def getResourcesWithPreFilter
    (listResources : List Char → List Char → Except (List Char) (List Candidate))
    (resourceType namespaceArg : List Char) : List Candidate :=
  match listResources resourceType namespaceArg with
  | .error _ => []
  | .ok items => items

/-- The loop body of `quickScanResources` (source lines 593–621): stop once
`maxResults` results are collected; accept a candidate exactly when its
lowercase name contains the lowercase query. -/
def quickScanLoop (resourceType namespaceArg queryLower : List Char)
    (maxResults : Nat) : List Candidate → List SearchResult → List SearchResult
  | [], acc => acc
  | r :: rest, acc =>
    if maxResults ≤ acc.length then acc
    else if jsIncludes (lower r.name) queryLower then
      quickScanLoop resourceType namespaceArg queryLower maxResults rest
        (acc ++ [⟨r, resourceType, namespaceArg, 1,
          chars "exact substring match in name", 0⟩])
    else quickScanLoop resourceType namespaceArg queryLower maxResults rest acc

/-- Translation of `quickScanResources` (source lines 593–621). -/
def quickScanResources (resources : List Candidate)
    (resourceType namespaceArg queryLower : List Char) (maxResults : Nat) :
    List SearchResult :=
  quickScanLoop resourceType namespaceArg queryLower maxResults resources []

/-- First label entry whose lowercased `key=value` text contains the
lowercase query (source lines 645–657 and 735–747). -/
def labelEntryMatch (labels : List (List Char × List Char))
    (queryLower : List Char) : Option (List Char × List Char) :=
  labels.find? fun kv => jsIncludes (lower (kv.1 ++ chars "=" ++ kv.2)) queryLower

/-- Translation of `getFieldValue` (source lines 770–772), on the modelled
path→stringified-value map of a candidate. -/
def getFieldValue (r : Candidate) (path : List Char) : Option (List Char) :=
  r.fieldVals.lookup path

/-- The edit-distance rule of the deep fuzzy scan (source lines 686–702):
length pruning, then the distance bound, then the raw score
`1 - distance / max(len, len)` checked against `minScore`, the accepted match
carrying `score * 0.9`. -/
def fuzzyEditMatch (cfg : SearchConfig) (queryLower resourceName : List Char) :
    Option MatchInfo :=
  let lengthDiff :=
    max queryLower.length resourceName.length - min queryLower.length resourceName.length
  if lengthDiff ≤ cfg.maxDistance then
    let distance := levenshteinDistance queryLower resourceName
    if distance ≤ cfg.maxDistance then
      let score : ℚ := 1 - (distance : ℚ) / (max queryLower.length resourceName.length : ℚ)
      if cfg.minScore ≤ score then
        some ⟨score * 0.9,
          chars "fuzzy name match (distance: " ++ (Nat.repr distance).data ++ chars ")",
          distance⟩
      else none
    else none
  else none

/-- Token split of the word-boundary rule: `name.split(/[-_\s]/)`
(source line 706). -/
def wordTokens (resourceName : List Char) : List (List Char) :=
  resourceName.splitOnP fun c =>
    c = '-' || c = '_' || c = ' ' || c = '\t' || c = '\n' || c = '\r'

/-- The word-boundary rule (source lines 704–717): only for names containing
`-` or `_`, accept with score 0.8 when some token contains the query. -/
def wordBoundaryMatches (queryLower resourceName : List Char) : List MatchInfo :=
  if jsIncludes resourceName (chars "-") || jsIncludes resourceName (chars "_") then
    match (wordTokens resourceName).find? (fun w => jsIncludes w queryLower) with
    | some _ => [⟨0.8, chars "word boundary match in name", 0⟩]
    | none => []
  else []

/-- The acronym rule (source lines 719–732): only for queries of length ≤ 4
and names containing `-`; in the JavaScript `words.map(w => w[0]).join('')`
the head of an empty token is `undefined`, which `Array.prototype.join`
converts to the empty string, so empty tokens contribute nothing. -/
def acronymMatches (queryLower resourceName : List Char) : List MatchInfo :=
  if jsIncludes resourceName (chars "-") ∧ queryLower.length ≤ 4 then
    let words := resourceName.splitOnP fun c => c = '-'
    if 1 < words.length then
      let acronym := (words.map fun w =>
        match w with
        | [] => ([] : List Char)
        | c :: _ => [c]).flatten
      if jsIncludes acronym queryLower then [⟨0.6, chars "acronym match", 0⟩] else []
    else []
  else []

/-- The label fallback of the fuzzy deep scan (source lines 734–747), score
0.7.  (An absent label map and an empty one both yield no match.) -/
def fuzzyLabelMatches (includeLabels : Bool) (labels : List (List Char × List Char))
    (queryLower : List Char) : List MatchInfo :=
  if includeLabels then
    match labelEntryMatch labels queryLower with
    | some kv => [⟨0.7, chars "label match (" ++ kv.1 ++ chars "=" ++ kv.2 ++ chars ")", 0⟩]
    | none => []
  else []

/-- The `matches` array the deep scan builds for one candidate
(source lines 641–748), by strategy. -/
def candidateMatches (regexTest : List Char → List Char → Bool)
    (query : List Char) (strategy : SearchStrategy) (cfg : SearchConfig)
    (includeLabels : Bool) (r : Candidate) : List MatchInfo :=
  let queryLower := lower query
  let resourceName := lower r.name
  if strategy.stype = chars "labels" then
    match labelEntryMatch r.labels queryLower with
    | some kv => [⟨1, chars "label match (" ++ kv.1 ++ chars "=" ++ kv.2 ++ chars ")", 0⟩]
    | none => []
  else if strategy.stype = chars "fields" then
    match getFieldValue r strategy.selector with
    | some v =>
      if v ≠ [] ∧ jsIncludes (lower v) queryLower then
        [⟨1, chars "field match (" ++ strategy.selector ++ chars ")", 0⟩]
      else []
    | none => []
  else if strategy.stype = chars "exact" then
    if regexTest (compileWildcardPattern strategy.selector) resourceName then
      [⟨1, chars "exact pattern match", 0⟩]
    else []
  else
    let m1 :=
      match fuzzyEditMatch cfg queryLower resourceName with
      | some m => [m]
      | none => []
    let m2 := m1 ++ (if m1.length = 0 then wordBoundaryMatches queryLower resourceName else [])
    let m3 := m2 ++ (if m2.length = 0 then acronymMatches queryLower resourceName else [])
    m3 ++ (if m3.length = 0 then fuzzyLabelMatches includeLabels r.labels queryLower else [])

/-- Reduction `matches.reduce((best, current) => current.score > best.score ? current : best)`
(source lines 752–754). -/
def bestMatchOf (m : MatchInfo) (rest : List MatchInfo) : MatchInfo :=
  rest.foldl (fun best current => if best.score < current.score then current else best) m

/-- The loop body of `deepSearchResources` (source lines 623–768). -/
def deepSearchLoop (regexTest : List Char → List Char → Bool)
    (query : List Char) (strategy : SearchStrategy) (cfg : SearchConfig)
    (includeLabels : Bool) (resourceType namespaceArg : List Char)
    (maxResults : Nat) : List Candidate → List SearchResult → List SearchResult
  | [], acc => acc
  | r :: rest, acc =>
    if maxResults ≤ acc.length then acc
    else
      match candidateMatches regexTest query strategy cfg includeLabels r with
      | [] => deepSearchLoop regexTest query strategy cfg includeLabels
          resourceType namespaceArg maxResults rest acc
      | m :: ms =>
        let best := bestMatchOf m ms
        deepSearchLoop regexTest query strategy cfg includeLabels
          resourceType namespaceArg maxResults rest
          (acc ++ [⟨r, resourceType, namespaceArg, best.score, best.reason, best.distance⟩])

/-- Translation of `deepSearchResources` (source lines 623–768).  The `includeAnnotations`
parameter is accepted and, exactly as in the source, never used. -/
def deepSearchResources (regexTest : List Char → List Char → Bool)
    (resources : List Candidate) (resourceType namespaceArg query : List Char)
    (strategy : SearchStrategy) (cfg : SearchConfig)
    (includeLabels _includeAnnotations : Bool) (maxResults : Nat) :
    List SearchResult :=
  deepSearchLoop regexTest query strategy cfg includeLabels resourceType
    namespaceArg maxResults resources []

/-!  The streaming search (source lines 440–533).  JavaScript specifics kept:
namespaces are processed in batches of 50; every closure of a batch reads the
shared `results.length` as it was when the batch was issued (the accumulator
is only mutated at the merge point after `Promise.all`); the merge loop pushes
whole per-namespace result lists and stops after the first push that reaches
the limit; kinds and batches are skipped entirely once the limit is reached;
the returned list is `results.slice(0, limit)`. -/

/-- Static parameters of one streaming search, threaded through the loops. -/
structure SearchParams where
  query : List Char
  strategy : SearchStrategy
  cfg : SearchConfig
  includeLabels : Bool
  includeAnnotations : Bool
  limit : Nat

/-- The per-namespace closure of `streamingSearch` (source lines 471–513):
quick scan bounded by `min(10, limit - results.length)`, then — when the quick
scan found fewer than 5 and did not already accept every candidate — a deep
scan of the not-yet-accepted candidates bounded by
`min(3, limit - results.length - quickMatches.length)`.  `curLen` is the
shared accumulator length at batch issue time. -/
def processNamespace
    (listResources : List Char → List Char → Except (List Char) (List Candidate))
    (regexTest : List Char → List Char → Bool) (p : SearchParams)
    (resourceType : List Char) (curLen : Nat) (namespaceArg : List Char) :
    List SearchResult :=
  let queryLower := lower p.query
  let resources := getResourcesWithPreFilter listResources resourceType namespaceArg
  if resources.length = 0 then []
  else
    let quickMatches := quickScanResources resources resourceType namespaceArg
      queryLower (min 10 (p.limit - curLen))
    if quickMatches.length < 5 ∧ quickMatches.length < resources.length then
      quickMatches ++ deepSearchResources regexTest
        (resources.filter fun r => !(quickMatches.any fun qm => qm.resource.name == r.name))
        resourceType namespaceArg p.query p.strategy p.cfg
        p.includeLabels p.includeAnnotations
        (min 3 (p.limit - curLen - quickMatches.length))
    else quickMatches

/-- The merge loop after `Promise.all` (source lines 519–522): push each
namespace's results in issue order, stopping after the first push that brings
the accumulator to the limit. -/
def mergeBatch (limit : Nat) (acc : List SearchResult) :
    List (List SearchResult) → List SearchResult
  | [] => acc
  | b :: rest =>
    let acc2 := acc ++ b
    if limit ≤ acc2.length then acc2 else mergeBatch limit acc2 rest

/-- The namespace-batch loop of `streamingSearch` for one resource kind
(source lines 465–526).  The `fuel` argument makes the batch recursion
structural; each step consumes at least one namespace, so
`fuel = namespaces.length` (as passed by `runKinds`) is never exhausted. -/
def runBatches
    (listResources : List Char → List Char → Except (List Char) (List Candidate))
    (regexTest : List Char → List Char → Bool) (p : SearchParams)
    (resourceType : List Char) :
    Nat → List SearchResult → List (List Char) → List SearchResult
  | _, acc, [] => acc
  | 0, acc, _ :: _ => acc
  | fuel + 1, acc, ns :: rest =>
    if p.limit ≤ acc.length then acc
    else
      let batch := ns :: rest.take 49
      let batchResults := batch.map (processNamespace listResources regexTest p resourceType acc.length)
      let acc2 := mergeBatch p.limit acc batchResults
      runBatches listResources regexTest p resourceType fuel acc2 (rest.drop 49)

/-- The resource-kind loop of `streamingSearch` (source lines 461–530). -/
def runKinds
    (listResources : List Char → List Char → Except (List Char) (List Candidate))
    (regexTest : List Char → List Char → Bool) (p : SearchParams)
    (namespaces : List (List Char)) :
    List SearchResult → List (List Char) → List SearchResult
  | acc, [] => acc
  | acc, rt :: rest =>
    if p.limit ≤ acc.length then acc
    else runKinds listResources regexTest p namespaces
      (runBatches listResources regexTest p rt namespaces.length acc namespaces) rest

/-- Translation of `streamingSearch` (source lines 440–533).  The `recent` flag is accepted
and, exactly as in the source's streaming path, never forwarded to a listing
call. -/
def streamingSearch
    (listResources : List Char → List Char → Except (List Char) (List Candidate))
    (regexTest : List Char → List Char → Bool)
    (resourceTypes namespaces : List (List Char)) (query : List Char)
    (strategy : SearchStrategy) (searchConfig : SearchConfig)
    (includeLabels includeAnnotations _recent : Bool) (limit : Nat) :
    List SearchResult :=
  let p : SearchParams := ⟨query, strategy, searchConfig, includeLabels, includeAnnotations, limit⟩
  let prioritizedNamespaces := prioritizeNamespaces namespaces query
  let prioritizedResourceTypes := prioritizeResourceTypes resourceTypes query
  (runKinds listResources regexTest p prioritizedNamespaces [] prioritizedResourceTypes).take limit

/-!  Ranking (source lines 799–815).  JavaScript `sort` with the four
comparators is a stable sort; insertion sort realises it. -/

/-- Lexicographic character-code comparison modelling `localeCompare ≤ 0` for
the plain names the engine handles. -/
def lexLe : List Char → List Char → Bool
  | [], _ => true
  | _ :: _, [] => false
  | a :: as, b :: bs => if a = b then lexLe as bs else decide (a < b)

/-- Translation of `sortResults` (source lines 799–815): `name` ascending by name, `age`
newest first, `namespace` ascending by namespace, `relevance` (default) by
`matchScore` descending. -/
def sortResults (results : List SearchResult) (sortBy : List Char) :
    List SearchResult :=
  if sortBy = chars "name" then
    List.insertionSort (fun a b => lexLe a.resource.name b.resource.name = true) results
  else if sortBy = chars "age" then
    List.insertionSort
      (fun a b => b.resource.creationTimestamp ≤ a.resource.creationTimestamp) results
  else if sortBy = chars "namespace" then
    List.insertionSort (fun a b => lexLe a.namespaceName b.namespaceName = true) results
  else
    List.insertionSort (fun a b => b.matchScore ≤ a.matchScore) results

/-!  The tool entry point (source lines 106–184).  The result formatter is a
rendering-only boundary component; the function is modelled as returning the
sorted result list it hands to the formatter (`.ok`), or the thrown error
message (`.error`). -/

/-- Translation of `kubectlUnifiedSearch` (source lines 106–184).  The
fallible `regexCompile` models the `new RegExp` construction inside
`getTargetNamespaces`, whose failure is fatal; the total `regexTest` models
the regex matching of the deep scan's `exact` strategy, where a construction
failure would be swallowed by the per-namespace `catch` and no judged
property observes it. -/
def kubectlUnifiedSearch
    (listNamespaces : Except (List Char) (List (List Char)))
    (listResources : List Char → List Char → Except (List Char) (List Candidate))
    (regexCompile : List Char → Except (List Char) (List Char → Bool))
    (regexTest : List Char → List Char → Bool) (input : SearchInput) :
    Except (List Char) (List SearchResult) :=
  if blankQuery input.query then .error (chars "Search query cannot be empty")
  else
    let query := input.query
    let resourceTypes := input.resourceTypes.getD
      [chars "pods", chars "deployments", chars "services"]
    let namespacePattern := input.namespacePattern
    let excludeSystemNamespaces := input.excludeSystemNamespaces.getD false
    let searchMode := input.searchMode.getD (chars "auto")
    let fuzzyTolerance := input.fuzzyTolerance.getD (chars "moderate")
    let limit := input.limit.getD 20
    let includeLabels := input.includeLabels.getD true
    let includeAnnotations := input.includeAnnotations.getD false
    let sortBy := input.sortBy.getD (chars "relevance")
    let recent := input.recent.getD false
    match getTargetNamespaces listNamespaces regexCompile input.namespaces
        namespacePattern excludeSystemNamespaces query none with
    | .error e => .error (chars "Search failed: " ++ e)
    | .ok targetNamespaces =>
      if targetNamespaces.length = 0 then .ok []
      else
        let strategy := determineSearchStrategy query searchMode
        let searchConfig := getFuzzyConfig fuzzyTolerance
        let results := streamingSearch listResources regexTest resourceTypes
          targetNamespaces query strategy searchConfig includeLabels
          includeAnnotations recent limit
        .ok (sortResults results sortBy)

/-- Override a listing collaborator at one (kind, namespace) unit. -/
def updateListing
    (listResources : List Char → List Char → Except (List Char) (List Candidate))
    (rt0 ns0 : List Char) (v : Except (List Char) (List Candidate)) :
    List Char → List Char → Except (List Char) (List Candidate) :=
  fun rt ns => if rt = rt0 ∧ ns = ns0 then v else listResources rt ns

deriving instance DecidableEq for Except

/-- Shape test used by the error analysis: `namespaces && namespaces.length > 0`
of `getTargetNamespaces` is false, i.e. no non-empty explicit namespace set was
supplied and discovery runs. -/
def noExplicitNamespaces : Option (List (List Char)) → Bool
  | some (_ :: _) => false
  | _ => true

/-- Explicitly supplied non-empty namespace sets short-circuit
`getTargetNamespaces`: the listing collaborator, the system-namespace
exclusion and the pattern filter are never consulted. -/
theorem getTargetNamespaces_explicit
    (listNamespaces : Except (List Char) (List (List Char)))
    (regexCompile : List Char → Except (List Char) (List Char → Bool))
    (n : List Char) (rest : List (List Char)) (pat : Option (List Char))
    (excl : Bool) (query : List Char) (maxN : Option Nat) :
    getTargetNamespaces listNamespaces regexCompile (some (n :: rest)) pat excl query maxN
      = .ok (applyMaxNamespaces maxN (n :: rest)) := rfl

/-!  Claim theorems. -/

/-- C10: the Levenshtein distance function of the source satisfies
`distance(s, s) = 0`, `distance("", s) = len(s)` and
`distance(a, b) = distance(b, a)`. -/
theorem levenshtein_identity_empty_symm :
    (∀ s : List Char, levenshteinDistance s s = 0)
    ∧ (∀ s : List Char, levenshteinDistance [] s = s.length)
    ∧ (∀ a b : List Char, levenshteinDistance a b = levenshteinDistance b a) := by
  refine ⟨fun s => ?_, fun s => ?_, fun a b => ?_⟩
  · exact levCellF_diag s _ s.length
  · show levCellF [] s (s.length + List.length [] + 1) s.length (List.length []) = s.length
    simp only [List.length_nil, Nat.add_zero]
    exact levCellF_zero_right [] s (s.length + 1) s.length (by omega)
  · show levCellF a b (b.length + a.length + 1) b.length a.length
      = levCellF b a (a.length + b.length + 1) a.length b.length
    rw [levCellF_symm a b, Nat.add_comm b.length a.length]

/-- C3 (amended): the deep fuzzy scan's edit-distance rule accepts exactly
when `distance ≤ maxDistance` and the raw score
`1 − distance / max(len(query), len(name))` is `≥ minScore` — the `minScore`
threshold is applied before the `× 0.9` factor — and the accepted match
carries the score `(1 − distance / max(len(query), len(name))) × 0.9`.  The
length-difference pruning of the source never changes the accepted set. -/
theorem fuzzyEditMatch_acceptance (cfg : SearchConfig)
    (queryLower resourceName : List Char) :
    fuzzyEditMatch cfg queryLower resourceName =
      if levenshteinDistance queryLower resourceName ≤ cfg.maxDistance
          ∧ cfg.minScore ≤ 1 - (levenshteinDistance queryLower resourceName : ℚ)
              / (max queryLower.length resourceName.length : ℚ) then
        some ⟨(1 - (levenshteinDistance queryLower resourceName : ℚ)
              / (max queryLower.length resourceName.length : ℚ)) * 0.9,
          chars "fuzzy name match (distance: "
            ++ (Nat.repr (levenshteinDistance queryLower resourceName)).data ++ chars ")",
          levenshteinDistance queryLower resourceName⟩
      else none := by
  simp only [fuzzyEditMatch]
  by_cases h1 : max queryLower.length resourceName.length
      - min queryLower.length resourceName.length ≤ cfg.maxDistance
  · rw [if_pos h1]
    by_cases h2 : levenshteinDistance queryLower resourceName ≤ cfg.maxDistance
    · by_cases h3 : cfg.minScore ≤ 1 - (levenshteinDistance queryLower resourceName : ℚ)
          / (max queryLower.length resourceName.length : ℚ)
      · rw [if_pos h2, if_pos h3, if_pos ⟨h2, h3⟩]
      · rw [if_pos h2, if_neg h3, if_neg (fun hc => h3 hc.2)]
    · rw [if_neg h2, if_neg (fun hc => h2 hc.1)]
  · have h2 : ¬ levenshteinDistance queryLower resourceName ≤ cfg.maxDistance :=
      fun hc => h1 (le_trans (lengthDiff_le_levenshteinDistance queryLower resourceName) hc)
    rw [if_neg h1, if_neg (fun hc => h2 hc.1)]

/-- C3 (counterexample to the claim as stated): under the `strict` tolerance
(`maxDistance = 1`, `minScore = 0.8`) the candidate name `abcdf` for query
`abcde` has distance 1 and raw score `0.8 ≥ minScore`, so the code accepts it
— yet the reported score `0.8 × 0.9 = 0.72` is below `minScore`, which the
claim says should make the match rejected. -/
theorem fuzzyEditMatch_accepts_below_claimed_threshold :
    fuzzyEditMatch (getFuzzyConfig (chars "strict")) (chars "abcde") (chars "abcdf")
      = some ⟨18/25, chars "fuzzy name match (distance: 1)", 1⟩
    ∧ (18/25 : ℚ) < (getFuzzyConfig (chars "strict")).minScore := by
  have hlev : levenshteinDistance (chars "abcde") (chars "abcdf") = 1 := by decide
  have hcfg : getFuzzyConfig (chars "strict") = ⟨1, 0.8⟩ := rfl
  constructor
  · rw [hcfg]
    have h5 : (chars "abcde").length = 5 := by decide
    have h5' : (chars "abcdf").length = 5 := by decide
    simp only [fuzzyEditMatch, hlev, h5, h5']
    norm_num
    decide
  · rw [hcfg]
    norm_num

/-- C4: the wildcard-rewriting chain escapes dots only after substituting the
wildcards, so the `.` produced for `?` (and the `.` of the `.*` produced for
`*`) is itself escaped: the pattern `a?b` compiles to the regex source
`a\.b` — matching only a literal dot — instead of the `a.b` the specification
describes, and `app-*` compiles to `app-\.*` instead of `app-.*`. -/
theorem wildcardCompile_escapes_substituted_wildcards :
    compileWildcardPattern (chars "a?b") = chars "a\\.b"
    ∧ specWildcardRegex (chars "a?b") = chars "a.b"
    ∧ compileWildcardPattern (chars "a?b") ≠ specWildcardRegex (chars "a?b")
    ∧ compileWildcardPattern (chars "app-*") = chars "app-\\.*"
    ∧ specWildcardRegex (chars "app-*") = chars "app-.*" := by
  refine ⟨by decide, by decide, by decide, by decide, by decide⟩

/-- C6: with `searchMode = auto`, queries containing `=` select `fields` when
they also contain `metadata.`/`status.`/`spec.` and `labels` otherwise;
queries without `=` select `exact` when they contain `*` or `?` and `fuzzy`
otherwise; the selector is the query itself. -/
theorem strategySelection_auto (q : List Char) :
    (jsIncludes q (chars "=") = true →
      ((jsIncludes q (chars "metadata.") || jsIncludes q (chars "status.")
          || jsIncludes q (chars "spec.")) = true →
        determineSearchStrategy q (chars "auto") = ⟨chars "fields", q⟩)
      ∧ ((jsIncludes q (chars "metadata.") || jsIncludes q (chars "status.")
          || jsIncludes q (chars "spec.")) = false →
        determineSearchStrategy q (chars "auto") = ⟨chars "labels", q⟩))
    ∧ (jsIncludes q (chars "=") = false →
      ((jsIncludes q (chars "*") || jsIncludes q (chars "?")) = true →
        determineSearchStrategy q (chars "auto") = ⟨chars "exact", q⟩)
      ∧ ((jsIncludes q (chars "*") || jsIncludes q (chars "?")) = false →
        determineSearchStrategy q (chars "auto") = ⟨chars "fuzzy", q⟩)) := by
  constructor
  · intro heq
    constructor
    · intro hpath
      simp [determineSearchStrategy, heq, hpath]
    · intro hpath
      simp only [Bool.or_eq_false_iff] at hpath
      simp [determineSearchStrategy, heq, hpath.1, hpath.2]
  · intro heq
    constructor
    · intro hwild
      simp [determineSearchStrategy, heq, hwild]
    · intro hwild
      simp only [Bool.or_eq_false_iff] at hwild
      simp [determineSearchStrategy, heq, hwild.1, hwild.2]

/-- C6 witness: the query `env=prod` contains `=` and no path keyword, so the
auto mode selects the `labels` strategy with the query as selector. -/
theorem strategySelection_auto_witness :
    determineSearchStrategy (chars "env=prod") (chars "auto")
      = ⟨chars "labels", chars "env=prod"⟩ :=
  ((strategySelection_auto (chars "env=prod")).1 (by decide)).2 (by decide)

/-- C9 (amended): every explicitly supplied NON-EMPTY namespace set is
returned unchanged (bounded only by the caller-imposed maximum, which the
engine itself never sets), regardless of the namespace-listing collaborator,
the exclusion flag and the pattern — no discovery, exclusion or filtering
runs.  An explicitly supplied empty set does not qualify: it falls through to
discovery (see the counterexample). -/
theorem explicitNamespaces_nonempty_unchanged
    (listNamespaces : Except (List Char) (List (List Char)))
    (regexCompile : List Char → Except (List Char) (List Char → Bool))
    (n : List Char) (rest : List (List Char)) (pat : Option (List Char))
    (excl : Bool) (query : List Char) (maxN : Option Nat) :
    getTargetNamespaces listNamespaces regexCompile (some (n :: rest)) pat excl query maxN
      = .ok (applyMaxNamespaces maxN (n :: rest))
    ∧ getTargetNamespaces listNamespaces regexCompile (some (n :: rest)) pat excl query none
      = .ok (n :: rest) :=
  ⟨getTargetNamespaces_explicit listNamespaces regexCompile n rest pat excl query maxN,
   getTargetNamespaces_explicit listNamespaces regexCompile n rest pat excl query none⟩

/-- C9 (counterexample): an explicitly supplied EMPTY namespace set is not
returned unchanged — `namespaces && namespaces.length > 0` is false for it,
so discovery runs and returns the cluster's namespaces instead. -/
theorem explicitNamespaces_empty_discovers :
    getTargetNamespaces (.ok [chars "alpha"]) (fun _ => .ok (fun _ => true)) (some [])
        none false (chars "q") none
      = .ok [chars "alpha"]
    ∧ (Except.ok [chars "alpha"] : Except (List Char) (List (List Char)))
      ≠ .ok ([] : List (List Char)) := by
  refine ⟨by decide, by decide⟩

/-!  Concrete scenario inputs used by the scenario theorems below. -/

/-- A pod named `webapp-1`, no labels. -/
def candWebapp1 : Candidate := ⟨chars "webapp-1", [], 0, []⟩

/-- A pod named `my-webapp-svc`, no labels. -/
def candMyWebappSvc : Candidate := ⟨chars "my-webapp-svc", [], 0, []⟩

/-- A pod named `backend`, no labels. -/
def candBackend : Candidate := ⟨chars "backend", [], 0, []⟩

/-- Listing collaborator with a single pod `webapp-1` in namespace `default`. -/
def listResourcesOnePod : List Char → List Char → Except (List Char) (List Candidate) :=
  fun rt ns => if rt = chars "pods" ∧ ns = chars "default"
    then .ok [candWebapp1] else .ok []

/-- Search input: query `webapp`, pods in namespace `default`, explicit
`searchMode = labels`, everything else defaulted. -/
def inputLabelsMode : SearchInput :=
  ⟨chars "webapp", some [chars "pods"], some [chars "default"], none, none,
   some (chars "labels"), none, none, none, none, none, none⟩

/-- Listing collaborator for the specification's `webapp` scenario: pods
`webapp-1`, `my-webapp-svc`, `backend` in namespace `default`. -/
def listResourcesWebapp : List Char → List Char → Except (List Char) (List Candidate) :=
  fun rt ns => if rt = chars "pods" ∧ ns = chars "default"
    then .ok [candWebapp1, candMyWebappSvc, candBackend] else .ok []

/-- Search input for the `webapp` scenario: query `webapp`, pods in namespace
`default`, moderate tolerance, everything else defaulted (auto mode). -/
def inputWebapp : SearchInput :=
  ⟨chars "webapp", some [chars "pods"], some [chars "default"], none, none, none,
   some (chars "moderate"), none, none, none, none, none⟩

/-- C2 (amended): the quick exact-substring scan is applied for EVERY
strategy, not only for fuzzy — the per-namespace phase always begins with the
quick scan's name-substring matches, whatever `strategy` says; only the deep
scan that may follow them depends on the strategy. -/
theorem quickScan_runs_for_every_strategy
    (listResources : List Char → List Char → Except (List Char) (List Candidate))
    (regexTest : List Char → List Char → Bool) (p : SearchParams)
    (resourceType : List Char) (curLen : Nat) (namespaceArg : List Char) :
    quickScanResources (getResourcesWithPreFilter listResources resourceType namespaceArg)
        resourceType namespaceArg (lower p.query) (min 10 (p.limit - curLen))
      <+: processNamespace listResources regexTest p resourceType curLen namespaceArg := by
  simp only [processNamespace]
  by_cases h0 : (getResourcesWithPreFilter listResources resourceType namespaceArg).length = 0
  · rw [if_pos h0, List.length_eq_zero.mp h0]
    simp [quickScanResources, quickScanLoop]
  · rw [if_neg h0]
    by_cases hq : (quickScanResources
          (getResourcesWithPreFilter listResources resourceType namespaceArg)
          resourceType namespaceArg (lower p.query) (min 10 (p.limit - curLen))).length < 5
        ∧ (quickScanResources
          (getResourcesWithPreFilter listResources resourceType namespaceArg)
          resourceType namespaceArg (lower p.query) (min 10 (p.limit - curLen))).length
          < (getResourcesWithPreFilter listResources resourceType namespaceArg).length
    · rw [if_pos hq]; exact List.prefix_append _ _
    · rw [if_neg hq]

/-- C2 (counterexample to the claim as stated): with the explicit `labels`
strategy, the candidate `webapp-1` — which has no labels at all — is accepted
by the quick scan with `matchScore = 1.0` and reason
`exact substring match in name`, because the quick scan runs before and
independently of the strategy. -/
theorem labelsStrategy_quickScan_accepts_name_substring :
    determineSearchStrategy (chars "webapp") (chars "labels")
      = ⟨chars "labels", chars "webapp"⟩
    ∧ kubectlUnifiedSearch (.ok []) listResourcesOnePod
        (fun _ => .ok (fun _ => false)) (fun _ _ => false) inputLabelsMode
      = .ok [⟨candWebapp1, chars "pods", chars "default", 1,
          chars "exact substring match in name", 0⟩] := by
  refine ⟨by decide, by decide⟩

/-- C5 (amended): in the `webapp` scenario with moderate tolerance,
`webapp-1` AND `my-webapp-svc` are both returned with score 1.0 and reason
`exact substring match in name` — the substring check on the full name
`my-webapp-svc` succeeds — and `backend` is absent. -/
theorem webappScenario_results :
    kubectlUnifiedSearch (.ok []) listResourcesWebapp
      (fun _ => .ok (fun _ => false)) (fun _ _ => false) inputWebapp
      = .ok [⟨candWebapp1, chars "pods", chars "default", 1,
          chars "exact substring match in name", 0⟩,
        ⟨candMyWebappSvc, chars "pods", chars "default", 1,
          chars "exact substring match in name", 0⟩]
    ∧ ((kubectlUnifiedSearch (.ok []) listResourcesWebapp
          (fun _ => .ok (fun _ => false)) (fun _ _ => false)
          inputWebapp).toOption.getD []).all
        (fun r => !(r.resource.name == chars "backend")) = true := by
  refine ⟨by decide, by decide⟩

/-- C5 (counterexample to the claim as stated): `my-webapp-svc` is returned
with matchScore 1.0 via the quick substring scan — not 0.8 via the
word-boundary rule, since `"my-webapp-svc".includes("webapp")` is true. -/
theorem webappScenario_svc_scores_one :
    (((kubectlUnifiedSearch (.ok []) listResourcesWebapp
          (fun _ => .ok (fun _ => false)) (fun _ _ => false)
          inputWebapp).toOption.getD []).filter
        (fun r => r.resource.name == chars "my-webapp-svc")).map SearchResult.matchScore
      = [1]
    ∧ (((kubectlUnifiedSearch (.ok []) listResourcesWebapp
          (fun _ => .ok (fun _ => false)) (fun _ _ => false)
          inputWebapp).toOption.getD []).filter
        (fun r => r.resource.name == chars "my-webapp-svc")).map SearchResult.matchReason
      = [chars "exact substring match in name"]
    ∧ (1 : ℚ) ≠ 0.8 := by
  refine ⟨by decide, by decide, by norm_num⟩

/-- Sorting never changes the number of results. -/
theorem length_sortResults (results : List SearchResult) (sortBy : List Char) :
    (sortResults results sortBy).length = results.length := by
  unfold sortResults
  split_ifs <;> rw [List.length_insertionSort]

/-- The streaming search ends with `results.slice(0, limit)`, so its output
never exceeds the limit. -/
theorem length_streamingSearch_le
    (listResources : List Char → List Char → Except (List Char) (List Candidate))
    (regexTest : List Char → List Char → Bool)
    (resourceTypes namespaces : List (List Char)) (query : List Char)
    (strategy : SearchStrategy) (searchConfig : SearchConfig)
    (includeLabels includeAnnotations recent : Bool) (limit : Nat) :
    (streamingSearch listResources regexTest resourceTypes namespaces query
        strategy searchConfig includeLabels includeAnnotations recent limit).length
      ≤ limit := by
  unfold streamingSearch
  exact List.length_take_le limit _

/-- C1: for every combination of search inputs and every behaviour of the
listing collaborators, a successful search returns at most
`limit` (default 20) results. -/
theorem resultSet_bounded_by_limit
    (listNamespaces : Except (List Char) (List (List Char)))
    (listResources : List Char → List Char → Except (List Char) (List Candidate))
    (regexCompile : List Char → Except (List Char) (List Char → Bool))
    (regexTest : List Char → List Char → Bool) (input : SearchInput)
    (rs : List SearchResult)
    (h : kubectlUnifiedSearch listNamespaces listResources regexCompile regexTest input
      = .ok rs) :
    rs.length ≤ input.limit.getD 20 := by
  simp only [kubectlUnifiedSearch] at h
  split at h
  · exact Except.noConfusion h
  · split at h
    · exact Except.noConfusion h
    · split at h
      · cases h with
        | refl => exact Nat.zero_le _
      · cases h with
        | refl =>
          rw [length_sortResults]
          exact length_streamingSearch_le _ _ _ _ _ _ _ _ _ _ _

/-- C1 witness: a concrete search (query `a`, explicit namespace `default`,
empty listings) succeeds with 0 results, within the default limit 20. -/
theorem resultSet_bounded_by_limit_witness : ([] : List SearchResult).length ≤ 20 :=
  resultSet_bounded_by_limit (.ok []) (fun _ _ => .ok [])
    (fun _ => .ok (fun _ => false)) (fun _ _ => false)
    ⟨chars "a", none, some [chars "default"], none, none, none, none, none,
      none, none, none, none⟩ [] (by decide)

/-- A blank query fails immediately with the unwrapped validation message,
before any collaborator is consulted. -/
theorem kubectlUnifiedSearch_blank
    (listNamespaces : Except (List Char) (List (List Char)))
    (listResources : List Char → List Char → Except (List Char) (List Candidate))
    (regexCompile : List Char → Except (List Char) (List Char → Bool))
    (regexTest : List Char → List Char → Bool) (input : SearchInput)
    (hb : blankQuery input.query = true) :
    kubectlUnifiedSearch listNamespaces listResources regexCompile regexTest input
      = .error (chars "Search query cannot be empty") := by
  simp only [kubectlUnifiedSearch, hb, if_true]

/-- With no non-empty explicit namespace set and a failing namespace-listing
call, the search fails with the doubly wrapped discovery error. -/
theorem kubectlUnifiedSearch_nsfail
    (listNamespaces : Except (List Char) (List (List Char)))
    (listResources : List Char → List Char → Except (List Char) (List Candidate))
    (regexCompile : List Char → Except (List Char) (List Char → Bool))
    (regexTest : List Char → List Char → Bool) (input : SearchInput)
    (hb : blankQuery input.query = false)
    (hn : noExplicitNamespaces input.namespaces = true)
    (c : List Char) (hc : listNamespaces = .error c) :
    kubectlUnifiedSearch listNamespaces listResources regexCompile regexTest input
      = .error (chars "Search failed: " ++ (chars "Failed to get namespaces: " ++ c)) := by
  have htn : getTargetNamespaces listNamespaces regexCompile input.namespaces
      input.namespacePattern (input.excludeSystemNamespaces.getD false) input.query none
      = .error (chars "Failed to get namespaces: " ++ c) := by
    cases hns : input.namespaces with
    | none => simp only [getTargetNamespaces, hns, hc]
    | some l =>
      cases l with
      | nil => simp only [getTargetNamespaces, hns, hc]
      | cons n rest => rw [hns] at hn; simp [noExplicitNamespaces] at hn
  simp only [kubectlUnifiedSearch, hb, Bool.false_eq_true, if_false, htn]

/-- With no non-empty explicit namespace set, a successful namespace listing,
and a namespacePattern whose rewritten source the regular-expression
constructor rejects, the search fails with the same doubly wrapped discovery
error carrying the constructor's message. -/
theorem kubectlUnifiedSearch_patfail
    (listNamespaces : Except (List Char) (List (List Char)))
    (listResources : List Char → List Char → Except (List Char) (List Candidate))
    (regexCompile : List Char → Except (List Char) (List Char → Bool))
    (regexTest : List Char → List Char → Bool) (input : SearchInput)
    (hb : blankQuery input.query = false)
    (hn : noExplicitNamespaces input.namespaces = true)
    (l : List (List Char)) (hl : listNamespaces = .ok l)
    (pat : List Char) (hp : input.namespacePattern = some pat)
    (c : List Char) (hc : regexCompile (compileWildcardPattern pat) = .error c) :
    kubectlUnifiedSearch listNamespaces listResources regexCompile regexTest input
      = .error (chars "Search failed: " ++ (chars "Failed to get namespaces: " ++ c)) := by
  have htn : getTargetNamespaces listNamespaces regexCompile input.namespaces
      input.namespacePattern (input.excludeSystemNamespaces.getD false) input.query none
      = .error (chars "Failed to get namespaces: " ++ c) := by
    cases hns : input.namespaces with
    | none => simp only [getTargetNamespaces, hns, hl, hp, hc]
    | some ll =>
      cases ll with
      | nil => simp only [getTargetNamespaces, hns, hl, hp, hc]
      | cons n rest => rw [hns] at hn; simp [noExplicitNamespaces] at hn
  simp only [kubectlUnifiedSearch, hb, Bool.false_eq_true, if_false, htn]

/-- A non-blank query with a usable namespace source — a non-empty explicit
set, or a successful namespace listing together with an absent or
successfully compiling pattern — always produces a result list. -/
theorem kubectlUnifiedSearch_isOk
    (listNamespaces : Except (List Char) (List (List Char)))
    (listResources : List Char → List Char → Except (List Char) (List Candidate))
    (regexCompile : List Char → Except (List Char) (List Char → Bool))
    (regexTest : List Char → List Char → Bool) (input : SearchInput)
    (hb : blankQuery input.query = false)
    (hok : noExplicitNamespaces input.namespaces = false
      ∨ ((∃ l, listNamespaces = .ok l)
        ∧ (input.namespacePattern = none
          ∨ ∃ pat rtest, input.namespacePattern = some pat
            ∧ regexCompile (compileWildcardPattern pat) = .ok rtest))) :
    ∃ rs, kubectlUnifiedSearch listNamespaces listResources regexCompile regexTest input
      = .ok rs := by
  have htn : ∃ tn, getTargetNamespaces listNamespaces regexCompile input.namespaces
      input.namespacePattern (input.excludeSystemNamespaces.getD false) input.query none
      = .ok tn := by
    have hdisc : (∃ l, listNamespaces = .ok l)
        ∧ (input.namespacePattern = none
          ∨ ∃ pat rtest, input.namespacePattern = some pat
            ∧ regexCompile (compileWildcardPattern pat) = .ok rtest) →
        ∃ tn, getTargetNamespaces listNamespaces regexCompile input.namespaces
          input.namespacePattern (input.excludeSystemNamespaces.getD false)
          input.query none = .ok tn := by
      rintro ⟨⟨l, hl⟩, hpat | ⟨pat, rtest, hp, hc⟩⟩
      · cases hns : input.namespaces with
        | none =>
          simp only [getTargetNamespaces, hns, hl, hpat]
          exact ⟨_, rfl⟩
        | some ll =>
          cases ll with
          | nil =>
            simp only [getTargetNamespaces, hns, hl, hpat]
            exact ⟨_, rfl⟩
          | cons n rest =>
            simp only [getTargetNamespaces, hns]
            exact ⟨_, rfl⟩
      · cases hns : input.namespaces with
        | none =>
          simp only [getTargetNamespaces, hns, hl, hp, hc]
          exact ⟨_, rfl⟩
        | some ll =>
          cases ll with
          | nil =>
            simp only [getTargetNamespaces, hns, hl, hp, hc]
            exact ⟨_, rfl⟩
          | cons n rest =>
            simp only [getTargetNamespaces, hns]
            exact ⟨_, rfl⟩
    rcases hok with hok | hdata
    · cases hns : input.namespaces with
      | none => rw [hns] at hok; simp [noExplicitNamespaces] at hok
      | some ll =>
        cases ll with
        | nil => rw [hns] at hok; simp [noExplicitNamespaces] at hok
        | cons n rest =>
          simp only [getTargetNamespaces, hns]
          exact ⟨_, rfl⟩
    · exact hdisc hdata
  rcases htn with ⟨tn, htn⟩
  simp only [kubectlUnifiedSearch, hb, Bool.false_eq_true, if_false, htn]
  by_cases h0 : tn.length = 0
  · rw [if_pos h0]; exact ⟨[], rfl⟩
  · rw [if_neg h0]; exact ⟨_, rfl⟩

/-- Concatenation shape of the fatal wrapped message. -/
theorem wrapped_discovery_message (c : List Char) :
    chars "Search failed: " ++ (chars "Failed to get namespaces: " ++ c)
      = chars "Search failed: Failed to get namespaces: " ++ c := by
  simp [chars]

/-- C7 (amended): the search raises an error and returns no result list
exactly in the fatal cases — (1) the query is blank, detected first and
failing with the unwrapped validation message before any retrieval; (2)
discovery runs (no non-empty explicit namespace set was supplied) and either
the namespace-listing call fails or the supplied namespacePattern fails to
compile as a regular expression; in case (2) the surfaced error is a single
wrapped message carrying the underlying cause `c`.  In every other situation
a result list is returned. -/
theorem fatalErrors_characterization
    (listNamespaces : Except (List Char) (List (List Char)))
    (listResources : List Char → List Char → Except (List Char) (List Candidate))
    (regexCompile : List Char → Except (List Char) (List Char → Bool))
    (regexTest : List Char → List Char → Bool) (input : SearchInput) :
    ((∃ e, kubectlUnifiedSearch listNamespaces listResources regexCompile regexTest input
        = .error e)
      ↔ (blankQuery input.query = true
        ∨ (noExplicitNamespaces input.namespaces = true
          ∧ ((∃ c, listNamespaces = .error c)
            ∨ ∃ pat c, input.namespacePattern = some pat
              ∧ regexCompile (compileWildcardPattern pat) = .error c))))
    ∧ (blankQuery input.query = true →
        kubectlUnifiedSearch listNamespaces listResources regexCompile regexTest input
          = .error (chars "Search query cannot be empty"))
    ∧ (∀ c, blankQuery input.query = false →
        noExplicitNamespaces input.namespaces = true →
        listNamespaces = .error c →
        kubectlUnifiedSearch listNamespaces listResources regexCompile regexTest input
          = .error (chars "Search failed: Failed to get namespaces: " ++ c))
    ∧ (∀ l pat c, blankQuery input.query = false →
        noExplicitNamespaces input.namespaces = true →
        listNamespaces = .ok l →
        input.namespacePattern = some pat →
        regexCompile (compileWildcardPattern pat) = .error c →
        kubectlUnifiedSearch listNamespaces listResources regexCompile regexTest input
          = .error (chars "Search failed: Failed to get namespaces: " ++ c)) := by
  refine ⟨⟨fun hex => ?_, fun hcase => ?_⟩, fun hb => ?_, fun c hb hn hc => ?_,
    fun l pat c hb hn hl hp hc => ?_⟩
  · by_cases hb : blankQuery input.query = true
    · exact Or.inl hb
    · right
      rw [Bool.not_eq_true] at hb
      by_cases hn : noExplicitNamespaces input.namespaces = true
      · refine ⟨hn, ?_⟩
        cases hc : listNamespaces with
        | error c => exact Or.inl ⟨c, rfl⟩
        | ok l =>
          right
          cases hp : input.namespacePattern with
          | none =>
            rcases kubectlUnifiedSearch_isOk listNamespaces listResources
              regexCompile regexTest input hb
              (Or.inr ⟨⟨l, hc⟩, Or.inl hp⟩) with ⟨rs, hrs⟩
            rcases hex with ⟨e, he⟩
            rw [hrs] at he
            exact Except.noConfusion he
          | some pat =>
            cases hcp : regexCompile (compileWildcardPattern pat) with
            | error c => exact ⟨pat, c, rfl, hcp⟩
            | ok rtest =>
              rcases kubectlUnifiedSearch_isOk listNamespaces listResources
                regexCompile regexTest input hb
                (Or.inr ⟨⟨l, hc⟩, Or.inr ⟨pat, rtest, hp, hcp⟩⟩) with ⟨rs, hrs⟩
              rcases hex with ⟨e, he⟩
              rw [hrs] at he
              exact Except.noConfusion he
      · rw [Bool.not_eq_true] at hn
        rcases kubectlUnifiedSearch_isOk listNamespaces listResources regexCompile
          regexTest input hb (Or.inl hn) with ⟨rs, hrs⟩
        rcases hex with ⟨e, he⟩
        rw [hrs] at he
        exact Except.noConfusion he
  · rcases hcase with hb | ⟨hn, ⟨c, hc⟩ | ⟨pat, c, hp, hc⟩⟩
    · exact ⟨_, kubectlUnifiedSearch_blank listNamespaces listResources regexCompile
        regexTest input hb⟩
    · by_cases hb : blankQuery input.query = true
      · exact ⟨_, kubectlUnifiedSearch_blank listNamespaces listResources regexCompile
          regexTest input hb⟩
      · rw [Bool.not_eq_true] at hb
        exact ⟨_, kubectlUnifiedSearch_nsfail listNamespaces listResources regexCompile
          regexTest input hb hn c hc⟩
    · by_cases hb : blankQuery input.query = true
      · exact ⟨_, kubectlUnifiedSearch_blank listNamespaces listResources regexCompile
          regexTest input hb⟩
      · rw [Bool.not_eq_true] at hb
        cases hl : listNamespaces with
        | error c2 =>
          exact ⟨_, kubectlUnifiedSearch_nsfail (.error c2) listResources regexCompile
            regexTest input hb hn c2 rfl⟩
        | ok l =>
          exact ⟨_, kubectlUnifiedSearch_patfail (.ok l) listResources regexCompile
            regexTest input hb hn l rfl pat hp c hc⟩
  · exact kubectlUnifiedSearch_blank listNamespaces listResources regexCompile
      regexTest input hb
  · have h := kubectlUnifiedSearch_nsfail listNamespaces listResources regexCompile
      regexTest input hb hn c hc
    rw [h, wrapped_discovery_message]
  · have h := kubectlUnifiedSearch_patfail listNamespaces listResources regexCompile
      regexTest input hb hn l hl pat hp c hc
    rw [h, wrapped_discovery_message]

/-- C7 witness: a whitespace-only query fails with the validation message;
the collaborators never matter. -/
theorem fatalErrors_characterization_witness :
    kubectlUnifiedSearch (.ok []) (fun _ _ => .ok [])
      (fun _ => .ok (fun _ => false)) (fun _ _ => false)
      ⟨chars "  ", none, none, none, none, none, none, none, none, none, none, none⟩
      = .error (chars "Search query cannot be empty") :=
  (fatalErrors_characterization (.ok []) (fun _ _ => .ok [])
    (fun _ => .ok (fun _ => false)) (fun _ _ => false)
    ⟨chars "  ", none, none, none, none, none, none, none, none, none, none, none⟩).2.1
    (by decide)

/-- Concrete regex-compilation collaborator for the counterexample: every
JavaScript engine rejects the regular-expression source `[` (an unterminated
character class) with a `SyntaxError`; every other source compiles. -/
def regexCompileRejectsBracket : List Char → Except (List Char) (List Char → Bool) :=
  fun src =>
    if src = chars "[" then
      .error (chars "SyntaxError: Invalid regular expression: unterminated character class")
    else .ok (fun _ => false)

/-- C7 (counterexample to the claim as stated): a third fatal case exists.
With a non-blank query and a SUCCESSFUL namespace-listing call, the malformed
`namespacePattern` `[` — left unchanged by the wildcard-rewriting chain — is
rejected by the regular-expression constructor inside `getTargetNamespaces`'
try block, and the search surfaces the fatal wrapped error, contradicting the
claim that errors arise only for a blank query or a failed namespace-listing
call. -/
theorem malformedPattern_fatal_without_listing_failure :
    compileWildcardPattern (chars "[") = chars "["
    ∧ blankQuery (chars "x") = false
    ∧ kubectlUnifiedSearch (.ok [chars "alpha"]) (fun _ _ => .ok [])
        regexCompileRejectsBracket (fun _ _ => false)
        ⟨chars "x", none, none, some (chars "["), none, none, none, none,
          none, none, none, none⟩
      = .error (chars "Search failed: Failed to get namespaces: SyntaxError: Invalid regular expression: unterminated character class") := by
  refine ⟨by decide, by decide, by decide⟩

/-- Recovery erases the difference between a unit whose listing call fails and
one that returns no resources. -/
theorem getResources_update_error_eq_empty
    (listResources : List Char → List Char → Except (List Char) (List Candidate))
    (rt0 ns0 e : List Char) (rt ns : List Char) :
    getResourcesWithPreFilter (updateListing listResources rt0 ns0 (.error e)) rt ns
      = getResourcesWithPreFilter (updateListing listResources rt0 ns0 (.ok [])) rt ns := by
  unfold getResourcesWithPreFilter updateListing
  by_cases h : rt = rt0 ∧ ns = ns0
  · rw [if_pos h, if_pos h]
  · rw [if_neg h, if_neg h]

/-- The per-namespace phase only sees the recovered candidate lists. -/
theorem processNamespace_congr
    (f1 f2 : List Char → List Char → Except (List Char) (List Candidate))
    (h : ∀ rt ns, getResourcesWithPreFilter f1 rt ns = getResourcesWithPreFilter f2 rt ns)
    (regexTest : List Char → List Char → Bool) (p : SearchParams)
    (resourceType : List Char) (curLen : Nat) (namespaceArg : List Char) :
    processNamespace f1 regexTest p resourceType curLen namespaceArg
      = processNamespace f2 regexTest p resourceType curLen namespaceArg := by
  simp only [processNamespace, h]

/-- The batch loop only sees the recovered candidate lists. -/
theorem runBatches_congr
    (f1 f2 : List Char → List Char → Except (List Char) (List Candidate))
    (h : ∀ rt ns, getResourcesWithPreFilter f1 rt ns = getResourcesWithPreFilter f2 rt ns)
    (regexTest : List Char → List Char → Bool) (p : SearchParams)
    (resourceType : List Char) :
    ∀ fuel acc nss, runBatches f1 regexTest p resourceType fuel acc nss
      = runBatches f2 regexTest p resourceType fuel acc nss := by
  intro fuel
  induction fuel with
  | zero => intro acc nss; cases nss <;> rfl
  | succ fuel ih =>
    intro acc nss
    cases nss with
    | nil => rfl
    | cons ns rest =>
      simp only [runBatches]
      by_cases hl : p.limit ≤ acc.length
      · rw [if_pos hl, if_pos hl]
      · rw [if_neg hl, if_neg hl]
        have hmap : (ns :: rest.take 49).map
              (processNamespace f1 regexTest p resourceType acc.length)
            = (ns :: rest.take 49).map
              (processNamespace f2 regexTest p resourceType acc.length) := by
          apply List.map_congr_left
          intro x _
          exact processNamespace_congr f1 f2 h regexTest p resourceType acc.length x
        simp only [hmap]
        exact ih _ _

/-- The kind loop only sees the recovered candidate lists. -/
theorem runKinds_congr
    (f1 f2 : List Char → List Char → Except (List Char) (List Candidate))
    (h : ∀ rt ns, getResourcesWithPreFilter f1 rt ns = getResourcesWithPreFilter f2 rt ns)
    (regexTest : List Char → List Char → Bool) (p : SearchParams)
    (namespaces : List (List Char)) :
    ∀ rts acc, runKinds f1 regexTest p namespaces acc rts
      = runKinds f2 regexTest p namespaces acc rts := by
  intro rts
  induction rts with
  | nil => intro acc; rfl
  | cons rt rest ih =>
    intro acc
    simp only [runKinds]
    by_cases hl : p.limit ≤ acc.length
    · rw [if_pos hl, if_pos hl]
    · rw [if_neg hl, if_neg hl, runBatches_congr f1 f2 h regexTest p rt]
      exact ih _

/-- C8: a (kind, namespace) unit whose listing call fails contributes exactly
what a unit with an empty candidate list contributes — nothing: the whole
search (error surface, remaining kinds and namespaces, ranking) behaves
identically whether the unit threw or returned no resources.  In particular
the failure is never surfaced and the rest of the search completes normally
as the best-effort result over the other units. -/
theorem failingUnit_equals_emptyUnit
    (listNamespaces : Except (List Char) (List (List Char)))
    (listResources : List Char → List Char → Except (List Char) (List Candidate))
    (regexCompile : List Char → Except (List Char) (List Char → Bool))
    (regexTest : List Char → List Char → Bool) (input : SearchInput)
    (rt0 ns0 e : List Char) :
    kubectlUnifiedSearch listNamespaces
        (updateListing listResources rt0 ns0 (.error e)) regexCompile regexTest input
      = kubectlUnifiedSearch listNamespaces
        (updateListing listResources rt0 ns0 (.ok [])) regexCompile regexTest input := by
  have h := getResources_update_error_eq_empty listResources rt0 ns0 e
  have hstream : ∀ (resourceTypes namespaces : List (List Char)) (query : List Char)
      (strategy : SearchStrategy) (cfg : SearchConfig) (il ia rec : Bool) (lim : Nat),
      streamingSearch (updateListing listResources rt0 ns0 (.error e)) regexTest
        resourceTypes namespaces query strategy cfg il ia rec lim
      = streamingSearch (updateListing listResources rt0 ns0 (.ok [])) regexTest
        resourceTypes namespaces query strategy cfg il ia rec lim := by
    intro resourceTypes namespaces query strategy cfg il ia rec lim
    simp only [streamingSearch]
    rw [runKinds_congr _ _ h]
  simp only [kubectlUnifiedSearch, hstream]

/-- Fidelity of the fuel-structured batch loop: any fuel of at least the
namespace-list length (each batch consumes at least one namespace) yields the
same result, so the `fuel = namespaces.length` used by `runKinds` is never
exhausted and the fuel is semantically invisible. -/
theorem runBatches_fuel_irrelevant
    (listResources : List Char → List Char → Except (List Char) (List Candidate))
    (regexTest : List Char → List Char → Bool) (p : SearchParams)
    (resourceType : List Char) :
    ∀ fuel1 fuel2 acc nss, nss.length ≤ fuel1 → nss.length ≤ fuel2 →
      runBatches listResources regexTest p resourceType fuel1 acc nss
        = runBatches listResources regexTest p resourceType fuel2 acc nss := by
  intro fuel1
  induction fuel1 with
  | zero =>
    intro fuel2 acc nss h1 _
    have : nss = [] := List.eq_nil_of_length_eq_zero (Nat.le_zero.mp h1)
    subst this
    cases fuel2 <;> rfl
  | succ fuel1 ih =>
    intro fuel2 acc nss h1 h2
    cases nss with
    | nil => cases fuel2 <;> rfl
    | cons ns rest =>
      cases fuel2 with
      | zero => simp at h2
      | succ fuel2 =>
        simp only [runBatches]
        by_cases hl : p.limit ≤ acc.length
        · rw [if_pos hl, if_pos hl]
        · rw [if_neg hl, if_neg hl]
          apply ih
          · have := List.length_drop 49 rest
            simp only [List.length_cons] at h1
            omega
          · have := List.length_drop 49 rest
            simp only [List.length_cons] at h2
            omega
